import Mathlib

/-!
Verification of the gameplay simulation core of voxel-warfare: the enemy AI
state machine and melee raycast (src/unnamed/part_001), the enemy entity store
with damage mitigation and respawn (src/unnamed/part_005), the projectile hit
loop (src/unnamed/part_003) and the melee crit roll (src/src/systems/combat.ts).

JavaScript numbers are idealised as exact rationals.  Every comparison of a
Euclidean distance against a threshold in the source is embedded through the
square-root-free predicates distLT and distLE below, which agree with the
comparison of the real square root of the squared distance against the
threshold (distLT_iff_sqrt / distLE_iff_sqrt).
-/

namespace VoxelWarfare

/-- Shallow embedding of a three.js Vector3 with exact rational coordinates. -/
structure Vec3 where
  x : ℚ
  y : ℚ
  z : ℚ
deriving DecidableEq, Repr

def Vec3.add (a b : Vec3) : Vec3 := ⟨a.x + b.x, a.y + b.y, a.z + b.z⟩

def Vec3.sub (a b : Vec3) : Vec3 := ⟨a.x - b.x, a.y - b.y, a.z - b.z⟩

def Vec3.smul (c : ℚ) (v : Vec3) : Vec3 := ⟨c * v.x, c * v.y, c * v.z⟩

def Vec3.dot (a b : Vec3) : ℚ := a.x * b.x + a.y * b.y + a.z * b.z

/-- Squared Euclidean distance between two points; the source's
distanceTo(a, b) is the real square root of this quantity. -/
def Vec3.distSq (a b : Vec3) : ℚ :=
  (a.x - b.x) ^ 2 + (a.y - b.y) ^ 2 + (a.z - b.z) ^ 2

/-- The comparison sqrt dsq < r, expressed without square roots (for dsq ≥ 0):
a squared distance dsq is strictly below a threshold r exactly when r is
positive and dsq < r². -/
def distLT (dsq r : ℚ) : Prop := 0 < r ∧ dsq < r ^ 2

/-- The comparison sqrt dsq ≤ r, expressed without square roots (for dsq ≥ 0). -/
def distLE (dsq r : ℚ) : Prop := 0 ≤ r ∧ dsq ≤ r ^ 2

instance (dsq r : ℚ) : Decidable (distLT dsq r) :=
  inferInstanceAs (Decidable (_ ∧ _))

instance (dsq r : ℚ) : Decidable (distLE dsq r) :=
  inferInstanceAs (Decidable (_ ∧ _))

/-- Enemy types (src/unnamed/part_005, EnemyType). -/
inductive EnemyType where
  | zombie
  | bandit
deriving DecidableEq, Repr

/-- AI states (src/unnamed/part_005, AIState). -/
inductive AIState where
  | idle
  | patrol
  | alert
  | chase
  | attack
  | flee
  | dead
deriving DecidableEq, Repr

/-- Enemy stats (src/unnamed/part_005, EnemyStats). -/
structure EnemyStats where
  health : ℚ
  maxHealth : ℚ
  speed : ℚ
  damage : ℚ
  attackRange : ℚ
  detectionRange : ℚ
  attackSpeed : ℚ
  defense : ℚ
deriving DecidableEq, Repr

/-- Enemy record (src/unnamed/part_005, EnemyData). -/
structure EnemyData where
  id : String
  type : EnemyType
  position : Vec3
  rotation : ℚ
  stats : EnemyStats
  state : AIState
  target : Option String
  patrolPoints : List Vec3
  currentPatrolIndex : ℕ
  attackCooldown : ℚ
  alertTime : ℚ
  lastDamageTime : ℚ
  respawnTime : ℚ
deriving DecidableEq, Repr

/-- The ambient math library (three.js normalize, length and Math.atan2),
abstracted: the AI controller's observable state transitions proved below hold
for every implementation of these operations.  normalize of the zero vector and
the exact irrational values of length/atan2 are thus left unconstrained. -/
structure Geo where
  normalize : Vec3 → Vec3
  length : Vec3 → ℚ
  atan2 : ℚ → ℚ → ℚ

/-- A concrete stand-in math library used only to instantiate the
geometry-parametric theorems at concrete inputs. -/
def sampleGeo : Geo where
  normalize := fun v => v
  length := fun _ => 0
  atan2 := fun _ _ => 0

namespace EnemyAI

/-- transitionToState (src/unnamed/part_001 lines 240-258): no-op when already
in the requested state, otherwise switch state and run the entry logic. -/
def transitionToState (e : EnemyData) (newState : AIState) : EnemyData :=
  if e.state = newState then e
  else
    let e1 := { e with state := newState }
    match newState with
    | .alert => { e1 with alertTime := 1 }
    | .chase => { e1 with target := some "player" }
    | .patrol => { e1 with target := none }
    | _ => e1

/-- checkForPlayer (src/unnamed/part_001 lines 193-204). -/
def checkForPlayer (playerPos : Option Vec3) (e : EnemyData) : EnemyData :=
  match playerPos with
  | none => e
  | some p =>
    if distLT (Vec3.distSq e.position p) e.stats.detectionRange then
      transitionToState { e with target := some "player" } .alert
    else e

/-- moveTowards (src/unnamed/part_001 lines 206-217).  Note that in the source
direction.multiplyScalar mutates direction in place, so the length tested
against 0.01 is the length of the movement vector, not of the unit direction. -/
def moveTowards (geo : Geo) (target : Vec3) (delta speed : ℚ) (e : EnemyData) :
    EnemyData :=
  let direction := geo.normalize (target.sub e.position)
  let movement := Vec3.smul (speed * delta) direction
  let e1 := { e with position := e.position.add movement }
  if geo.length movement > 1 / 100 then
    { e1 with rotation := geo.atan2 movement.x movement.z }
  else e1

/-- idle handler (src/unnamed/part_001 lines 63-67). -/
def idleStep (playerPos : Option Vec3) (e : EnemyData) : EnemyData :=
  checkForPlayer playerPos (transitionToState e .patrol)

/-- patrol handler (src/unnamed/part_001 lines 69-85).  The source indexes
patrolPoints[currentPatrolIndex] directly; spawnEnemy always creates 4 patrol
points and keeps the index reduced mod the length, getD supplies the
same value on every reachable record. -/
def patrolStep (geo : Geo) (playerPos : Option Vec3) (delta : ℚ)
    (e : EnemyData) : EnemyData :=
  let targetPoint := e.patrolPoints.getD e.currentPatrolIndex e.position
  let e1 :=
    if distLT (Vec3.distSq e.position targetPoint) 1 then
      { e with currentPatrolIndex :=
          (e.currentPatrolIndex + 1) % e.patrolPoints.length }
    else moveTowards geo targetPoint delta (e.stats.speed * (1 / 2)) e
  checkForPlayer playerPos e1

/-- alert handler (src/unnamed/part_001 lines 87-104): alertTime is re-armed to
1.0 at the top of the handler, before the expiry check at the bottom. -/
def alertStep (playerPos : Option Vec3) (e : EnemyData) : EnemyData :=
  let e1 := { e with alertTime := 1 }
  let e2 : EnemyData :=
    match playerPos with
    | some p =>
      if distLT (Vec3.distSq e1.position p) e1.stats.detectionRange then
        transitionToState e1 .chase
      else e1
    | none => e1
  if e2.alertTime ≤ 0 then transitionToState e2 .patrol else e2

/-- chase handler (src/unnamed/part_001 lines 106-135). -/
def chaseStep (geo : Geo) (playerPos : Option Vec3) (delta : ℚ)
    (e : EnemyData) : EnemyData :=
  match playerPos with
  | none => transitionToState e .patrol
  | some p =>
    let dsq := Vec3.distSq e.position p
    if e.stats.health < e.stats.maxHealth * (1 / 5) then
      transitionToState e .flee
    else if distLE dsq e.stats.attackRange then
      transitionToState e .attack
    else if ¬ distLE dsq (e.stats.detectionRange * (3 / 2)) then
      transitionToState { e with target := none } .patrol
    else moveTowards geo p delta e.stats.speed e

/-- performAttack (src/unnamed/part_001 lines 219-238): re-validates the attack
range and returns the flat damage dealt to the player, if any. -/
def performAttack (playerPos : Option Vec3) (e : EnemyData) : Option ℚ :=
  match playerPos with
  | none => none
  | some p =>
    if ¬ distLE (Vec3.distSq e.position p) e.stats.attackRange then none
    else some e.stats.damage

/-- attack handler (src/unnamed/part_001 lines 137-166). -/
def attackStep (geo : Geo) (playerPos : Option Vec3) (e : EnemyData) :
    EnemyData × Option ℚ :=
  match playerPos with
  | none => (transitionToState e .patrol, none)
  | some p =>
    let dsq := Vec3.distSq e.position p
    if ¬ distLE dsq (e.stats.attackRange * (11 / 10)) then
      (transitionToState e .chase, none)
    else if e.stats.health < e.stats.maxHealth * (1 / 5) then
      (transitionToState e .flee, none)
    else
      let direction := geo.normalize (p.sub e.position)
      let e1 := { e with rotation := geo.atan2 direction.x direction.z }
      if e1.attackCooldown ≤ 0 then
        ({ e1 with attackCooldown := 1 / e1.stats.attackSpeed },
         performAttack playerPos e1)
      else (e1, none)

/-- flee handler (src/unnamed/part_001 lines 168-191); the distance used by the
back-to-patrol check is measured after the flee movement. -/
def fleeStep (geo : Geo) (playerPos : Option Vec3) (delta : ℚ)
    (e : EnemyData) : EnemyData :=
  match playerPos with
  | none => transitionToState e .patrol
  | some p =>
    let fleeDirection := geo.normalize (e.position.sub p)
    let fleeTarget := e.position.add (Vec3.smul 10 fleeDirection)
    let e1 := moveTowards geo fleeTarget delta (e.stats.speed * (3 / 2)) e
    if ¬ distLE (Vec3.distSq e1.position p) (e1.stats.detectionRange * 2) ∨
        e1.stats.health > e1.stats.maxHealth * (1 / 2) then
      transitionToState e1 .patrol
    else e1

/-- Timer decrement phase of EnemyAI.update (src/unnamed/part_001 lines 28-36):
each timer is decremented by delta only when it is currently positive; the
subtraction itself is not clamped. -/
def updateTimers (delta : ℚ) (e : EnemyData) : EnemyData :=
  let e1 :=
    if 0 < e.attackCooldown then
      { e with attackCooldown := e.attackCooldown - delta }
    else e
  if 0 < e1.alertTime then { e1 with alertTime := e1.alertTime - delta } else e1

/-- EnemyAI.update (src/unnamed/part_001 lines 19-61): the per-tick step.
Returns the updated record together with the damage dealt to the player by the
attack handler this tick, if any. -/
def update (geo : Geo) (playerPos : Option Vec3) (delta : ℚ) (e : EnemyData) :
    EnemyData × Option ℚ :=
  if e.state = .dead then (e, none)
  else
    let e1 := updateTimers delta e
    match e1.state with
    | .idle => (idleStep playerPos e1, none)
    | .patrol => (patrolStep geo playerPos delta e1, none)
    | .alert => (alertStep playerPos e1, none)
    | .chase => (chaseStep geo playerPos delta e1, none)
    | .attack => attackStep geo playerPos e1
    | .flee => (fleeStep geo playerPos delta e1, none)
    | .dead => (e1, none)

end EnemyAI

/-- Damage event (src/unnamed/part_005, DamageEvent); damage is the integral
post-mitigation amount. -/
structure DamageEvent where
  enemyId : String
  damage : ℤ
  isCritical : Bool
  position : Vec3
deriving DecidableEq, Repr

/-- Per-type stat configuration (src/unnamed/part_005, ENEMY_CONFIGS). -/
structure EnemyConfig where
  maxHealth : ℚ
  speed : ℚ
  damage : ℚ
  attackRange : ℚ
  detectionRange : ℚ
  attackSpeed : ℚ
  defense : ℚ
deriving DecidableEq, Repr

def ENEMY_CONFIGS : EnemyType → EnemyConfig
  | .zombie => ⟨100, 3, 15, 2, 15, 4 / 5, 5⟩
  | .bandit => ⟨80, 4, 8, 5, 18, 1, 3⟩

def enemyTypeName : EnemyType → String
  | .zombie => "zombie"
  | .bandit => "bandit"

/-- The enemy store state (src/unnamed/part_005, EnemyStore): the Map of
enemies, modelled as an insertion-ordered association list with unique keys,
plus the damage-event buffer. -/
structure EnemyStore where
  enemies : List (String × EnemyData)
  damageEvents : List DamageEvent
deriving DecidableEq, Repr

def emptyStore : EnemyStore := ⟨[], []⟩

/-- First-match lookup, the Map.get of the source. -/
def lookupEnemy : List (String × EnemyData) → String → Option EnemyData
  | [], _ => none
  | (k, v) :: rest, id => if k = id then some v else lookupEnemy rest id

/-- JS Map.set semantics: replace the (unique) existing binding in place,
append when the key is absent. -/
def mapSet : List (String × EnemyData) → String → EnemyData →
    List (String × EnemyData)
  | [], id, e => [(id, e)]
  | (k, v) :: rest, id, e =>
    if k = id then (k, e) :: rest else (k, v) :: mapSet rest id e

/-- Exact values of Math.cos at the patrol angles 0, π/2, π, 3π/2 used by
spawnEnemy (the source computes them with Math.cos over floats). -/
def patrolCos : ℕ → ℚ
  | 0 => 1
  | 1 => 0
  | 2 => -1
  | _ => 0

/-- Exact values of Math.sin at the patrol angles 0, π/2, π, 3π/2. -/
def patrolSin : ℕ → ℚ
  | 0 => 0
  | 1 => 1
  | 2 => 0
  | _ => -1

/-- Patrol point generation in spawnEnemy (src/unnamed/part_005 lines
101-111): 4 points on a circle of radius 10 around the spawn position. -/
def spawnPatrolPoints (position : Vec3) : List Vec3 :=
  (List.range 4).map fun i =>
    ⟨position.x + 10 * patrolCos i, position.y, position.z + 10 * patrolSin i⟩

/-- Id generated by spawnEnemy (src/unnamed/part_005 line 98); counter is the
module-level enemyIdCounter before the call. -/
def spawnId (counter : ℕ) (type : EnemyType) : String :=
  "enemy-" ++ enemyTypeName type ++ "-" ++ toString (counter + 1)

/-- The record built by spawnEnemy (src/unnamed/part_005 lines 113-136). -/
def spawnRecord (counter : ℕ) (type : EnemyType) (position : Vec3) :
    EnemyData :=
  let config := ENEMY_CONFIGS type
  { id := spawnId counter type
    type := type
    position := position
    rotation := 0
    stats :=
      { health := config.maxHealth
        maxHealth := config.maxHealth
        speed := config.speed
        damage := config.damage
        attackRange := config.attackRange
        detectionRange := config.detectionRange
        attackSpeed := config.attackSpeed
        defense := config.defense }
    state := .patrol
    target := none
    patrolPoints := spawnPatrolPoints position
    currentPatrolIndex := 0
    attackCooldown := 0
    alertTime := 0
    lastDamageTime := 0
    respawnTime := 0 }

/-- spawnEnemy (src/unnamed/part_005 lines 97-146). -/
def spawnEnemy (s : EnemyStore) (counter : ℕ) (type : EnemyType)
    (position : Vec3) : EnemyStore × String :=
  ({ s with
      enemies :=
        mapSet s.enemies (spawnId counter type)
          (spawnRecord counter type position) },
   spawnId counter type)

/-- Defense mitigation of damageEnemy (src/unnamed/part_005 lines 171-174):
reduction = defense / (defense + 100), final = max(1, floor(raw * (1 - reduction))). -/
def mitigatedDamage (defense rawDamage : ℚ) : ℤ :=
  max 1 ⌊rawDamage * (1 - defense / (defense + 100))⌋

/-- damageEnemy (src/unnamed/part_005 lines 167-216).  now is the Date.now()
timestamp; the returned option is the id for which a respawn is scheduled 30
seconds later, if the hit was lethal. -/
def damageEnemy (s : EnemyStore) (id : String) (damage : ℚ)
    (isCritical : Bool) (now : ℚ) : EnemyStore × Option String :=
  match lookupEnemy s.enemies id with
  | none => (s, none)
  | some enemy =>
    if enemy.state = .dead then (s, none)
    else
      let finalDamage : ℤ := mitigatedDamage enemy.stats.defense damage
      let newHealth : ℚ := max 0 (enemy.stats.health - (finalDamage : ℚ))
      let damageEvent : DamageEvent :=
        ⟨id, finalDamage, isCritical, enemy.position⟩
      let updated : EnemyData :=
        { enemy with
          stats := { enemy.stats with health := newHealth }
          lastDamageTime := now
          state := if newHealth ≤ 0 then .dead else enemy.state }
      ({ enemies := mapSet s.enemies id updated
         damageEvents := s.damageEvents ++ [damageEvent] },
       if newHealth ≤ 0 then some id else none)

/-- The fixed respawn delay scheduled by damageEnemy, in seconds. -/
def respawnDelaySeconds : ℚ := 30

/-- respawnEnemy (src/unnamed/part_005 lines 226-252).  The source reads
patrolPoints[0]; every stored enemy has 4 patrol points (spawnEnemy), so
headD supplies the same value on every reachable record. -/
def respawnEnemy (s : EnemyStore) (id : String) : EnemyStore :=
  match lookupEnemy s.enemies id with
  | none => s
  | some enemy =>
    let spawnPosition := enemy.patrolPoints.headD enemy.position
    { s with
      enemies := mapSet s.enemies id
        { enemy with
          position := spawnPosition
          stats := { enemy.stats with health := enemy.stats.maxHealth }
          state := .patrol
          target := none
          currentPatrolIndex := 0
          attackCooldown := 0
          alertTime := 0 } }

/-- Health of the stored enemy with the given id, if present. -/
def getHealth (s : EnemyStore) (id : String) : Option ℚ :=
  (lookupEnemy s.enemies id).map fun e => e.stats.health

/-- The per-record health invariant of the spec. -/
def healthInv (e : EnemyData) : Prop :=
  0 ≤ e.stats.health ∧ e.stats.health ≤ e.stats.maxHealth

instance (e : EnemyData) : Decidable (healthInv e) :=
  inferInstanceAs (Decidable (_ ∧ _))

/-- The store-wide health invariant. -/
def StoreInv (s : EnemyStore) : Prop :=
  ∀ id e, lookupEnemy s.enemies id = some e → healthInv e

/-- Mutable per-projectile state of the Projectile component
(src/unnamed/part_003): the lifetime countdown, the expiry flag and the
checkedEnemies hit-set. -/
structure ProjectileState where
  lifetime : ℚ
  hasExpired : Bool
  checkedEnemies : List String
deriving DecidableEq, Repr

/-- The enemies.forEach hit loop of the projectile useFrame callback
(src/unnamed/part_003 lines 48-67): every living enemy not yet in the hit-set
within distance 1.5 of the projectile position is added to the hit-set and
damaged, and the projectile is flagged expired; the loop does not stop at the
first hit.  Returns the final state and the ids damaged, in loop order. -/
def projectileHitSweep (st : ProjectileState) (pos : Vec3) :
    List (String × EnemyData) → ProjectileState × List String
  | [] => (st, [])
  | (id, e) :: rest =>
    if e.state = .dead ∨ id ∈ st.checkedEnemies then
      projectileHitSweep st pos rest
    else if distLT (Vec3.distSq pos e.position) (3 / 2) then
      let st1 : ProjectileState :=
        { st with checkedEnemies := id :: st.checkedEnemies,
                  hasExpired := true }
      let r := projectileHitSweep st1 pos rest
      (r.1, id :: r.2)
    else projectileHitSweep st pos rest

/-- One useFrame tick of the Projectile component (src/unnamed/part_003 lines
23-68): no-op when already expired, otherwise count down the lifetime (clamped
at 0, expiring at 0) and run the hit sweep at the current physics position. -/
def projectileTick (st : ProjectileState) (delta : ℚ) (pos : Vec3)
    (enemies : List (String × EnemyData)) : ProjectileState × List String :=
  if st.hasExpired then (st, [])
  else
    let newLifetime := max 0 (st.lifetime - delta)
    let st1 : ProjectileState :=
      { st with lifetime := newLifetime, hasExpired := newLifetime ≤ 0 }
    projectileHitSweep st1 pos enemies

/-- Weapon config (src/unnamed/part_004); only the fields consumed by the
melee crit roll are modelled, optional fields as Option. -/
structure Weapon where
  damage : ℚ
  range : ℚ
  attackSpeed : ℚ
  critChance : Option ℚ
  critMultiplier : Option ℚ
deriving DecidableEq, Repr

/-- JS defaulting with the or-operator on an optional numeric field: both an
absent field and an explicit 0 (both falsy) fall back to the default. -/
def jsOrDefault (v : Option ℚ) (d : ℚ) : ℚ :=
  match v with
  | none => d
  | some x => if x = 0 then d else x

/-- Crit roll of performMeleeAttack (src/src/systems/combat.ts lines 17-23):
rand is the Math.random() draw in [0, 1).  Returns the raw damage passed to
damageEnemy and the crit flag. -/
def meleeDamageRoll (w : Weapon) (rand : ℚ) : ℚ × Bool :=
  let isCrit : Bool := rand < jsOrDefault w.critChance (1 / 10)
  (if isCrit then w.damage * jsOrDefault w.critMultiplier 2 else w.damage,
   isCrit)

/-- Projection parameter of an enemy position onto the ray: the dot product of
(position − rayOrigin) with rayDirection (src/unnamed/part_001 lines 282-283). -/
def rayT (rayOrigin rayDirection : Vec3) (e : EnemyData) : ℚ :=
  ((e.position).sub rayOrigin).dot rayDirection

/-- Squared perpendicular distance from the enemy position to the point of the
ray at its projection parameter (src/unnamed/part_001 lines 303-306). -/
def rayPerpSq (rayOrigin rayDirection : Vec3) (e : EnemyData) : ℚ :=
  Vec3.distSq
    (rayOrigin.add (Vec3.smul (rayT rayOrigin rayDirection e) rayDirection))
    e.position

/-- Per-enemy body of the checkEnemyHit loop (src/unnamed/part_001 lines
277-309): the projection parameter of a living enemy whose projection lies in
[0, maxDistance] and whose perpendicular distance to the ray is at most the
1-unit hitbox radius (distanceToRay ≤ 1 is squared to rayPerpSq ≤ 1). -/
def hitCandidate (rayOrigin rayDirection : Vec3) (maxDistance : ℚ)
    (e : EnemyData) : Option ℚ :=
  if e.state = .dead then none
  else
    let t := rayT rayOrigin rayDirection e
    if t < 0 then none
    else if t > maxDistance then none
    else if rayPerpSq rayOrigin rayDirection e ≤ 1 then some t
    else none

/-- Update of the running closest hit by one enemy (src/unnamed/part_001
lines 310-314): a candidate replaces the stored hit only when its projection
is strictly smaller (closestDistance starts at infinity, modelled by none). -/
def considerHit (rayOrigin rayDirection : Vec3) (maxDistance : ℚ)
    (best : Option (String × ℚ)) (id : String) (e : EnemyData) :
    Option (String × ℚ) :=
  match hitCandidate rayOrigin rayDirection maxDistance e with
  | none => best
  | some t =>
    match best with
    | none => some (id, t)
    | some (bid, bt) => if t < bt then some (id, t) else some (bid, bt)

/-- Fold of the checkEnemyHit loop over the enemies (src/unnamed/part_001
lines 271-315). -/
def checkEnemyHitAux (rayOrigin rayDirection : Vec3) (maxDistance : ℚ) :
    List (String × EnemyData) → Option (String × ℚ) → Option (String × ℚ)
  | [], best => best
  | (id, e) :: rest, best =>
    checkEnemyHitAux rayOrigin rayDirection maxDistance rest
      (considerHit rayOrigin rayDirection maxDistance best id e)

/-- checkEnemyHit (src/unnamed/part_001 lines 264-322), over the current list
of store enemies. -/
def checkEnemyHit (enemies : List (String × EnemyData))
    (rayOrigin rayDirection : Vec3) (maxDistance : ℚ) : Option (String × ℚ) :=
  checkEnemyHitAux rayOrigin rayDirection maxDistance enemies none

/-- An enemy qualifies as a melee hit candidate. -/
def hitQualifies (rayOrigin rayDirection : Vec3) (maxDistance : ℚ)
    (e : EnemyData) : Prop :=
  e.state ≠ .dead ∧ 0 ≤ rayT rayOrigin rayDirection e ∧
    rayT rayOrigin rayDirection e ≤ maxDistance ∧
    rayPerpSq rayOrigin rayDirection e ≤ 1

instance (ro rd : Vec3) (maxD : ℚ) (e : EnemyData) :
    Decidable (hitQualifies ro rd maxD e) :=
  inferInstanceAs (Decidable (_ ∧ _))

/-- Test fixture: a freshly spawned zombie record placed at the given
position (stats from ENEMY_CONFIGS.zombie), used to instantiate theorems. -/
def mkEnemy (pos : Vec3) : EnemyData :=
  { id := "e"
    type := .zombie
    position := pos
    rotation := 0
    stats :=
      { health := 100, maxHealth := 100, speed := 3, damage := 15,
        attackRange := 2, detectionRange := 15, attackSpeed := 4 / 5,
        defense := 5 }
    state := .patrol
    target := none
    patrolPoints := []
    currentPatrolIndex := 0
    attackCooldown := 0
    alertTime := 0
    lastDamageTime := 0
    respawnTime := 0 }

/-- Test fixture: an alerted zombie with a nearly exhausted attack cooldown. -/
def eAlertLowCooldown : EnemyData :=
  { mkEnemy ⟨0, 0, 0⟩ with state := .alert, attackCooldown := 1 / 10 }

/-- Test fixture: a dead zombie at zero health. -/
def eDeadFix : EnemyData :=
  { mkEnemy ⟨0, 0, 0⟩ with
    state := .dead
    stats := { (mkEnemy ⟨0, 0, 0⟩).stats with health := 0 } }

/-- Test fixture: a chasing zombie at 15 percent health. -/
def eChaseLowHealth : EnemyData :=
  { mkEnemy ⟨0, 0, 0⟩ with
    state := .chase
    target := some "player"
    stats := { (mkEnemy ⟨0, 0, 0⟩).stats with health := 15 } }

/-- Test fixture: the store after spawning one zombie at (10, 1, 0). -/
def storeFix : EnemyStore := (spawnEnemy emptyStore 0 .zombie ⟨10, 1, 0⟩).1

/-- Test fixture: a store holding one dead zombie. -/
def deadStoreFix : EnemyStore := ⟨[("z", eDeadFix)], []⟩

theorem distSq_nonneg (a b : Vec3) : 0 ≤ Vec3.distSq a b := by
  unfold Vec3.distSq
  positivity

/-- Faithfulness of the square-root-free embedding: distLT dsq r says exactly
that the real square root of dsq is strictly below r. -/
theorem distLT_iff_sqrt (dsq r : ℚ) :
    distLT dsq r ↔ Real.sqrt (dsq : ℝ) < (r : ℝ) := by
  constructor
  · rintro ⟨hr, hlt⟩
    refine (Real.sqrt_lt' (by exact_mod_cast hr)).mpr ?_
    exact_mod_cast hlt
  · intro h
    have hr : (0 : ℝ) < (r : ℝ) := lt_of_le_of_lt (Real.sqrt_nonneg _) h
    refine ⟨by exact_mod_cast hr, ?_⟩
    have := (Real.sqrt_lt' hr).mp h
    exact_mod_cast this

/-- Faithfulness of the square-root-free embedding: distLE dsq r says exactly
that the real square root of dsq is at most r. -/
theorem distLE_iff_sqrt (dsq r : ℚ) :
    distLE dsq r ↔ Real.sqrt (dsq : ℝ) ≤ (r : ℝ) := by
  rw [Real.sqrt_le_iff]
  unfold distLE
  constructor
  · rintro ⟨h1, h2⟩
    exact ⟨by exact_mod_cast h1, by exact_mod_cast h2⟩
  · rintro ⟨h1, h2⟩
    exact ⟨by exact_mod_cast h1, by exact_mod_cast h2⟩

theorem lookup_mapSet_self (l : List (String × EnemyData)) (id : String)
    (e : EnemyData) : lookupEnemy (mapSet l id e) id = some e := by
  induction l with
  | nil => simp [mapSet, lookupEnemy]
  | cons hd tl ih =>
    obtain ⟨k, v⟩ := hd
    by_cases hk : k = id
    · simp [mapSet, lookupEnemy, hk]
    · simp [mapSet, lookupEnemy, hk, ih]

theorem lookup_mapSet_ne (l : List (String × EnemyData)) (id id' : String)
    (e : EnemyData) (h : id' ≠ id) :
    lookupEnemy (mapSet l id e) id' = lookupEnemy l id' := by
  induction l with
  | nil =>
    simp only [mapSet, lookupEnemy]
    rw [if_neg fun hc => h hc.symm]
  | cons hd tl ih =>
    obtain ⟨k, v⟩ := hd
    simp only [mapSet]
    by_cases hk : k = id
    · rw [if_pos hk]
      subst hk
      simp only [lookupEnemy]
      rw [if_neg fun hc => h hc.symm, if_neg fun hc => h hc.symm]
    · rw [if_neg hk]
      simp only [lookupEnemy]
      by_cases hk' : k = id'
      · rw [if_pos hk', if_pos hk']
      · rw [if_neg hk', if_neg hk', ih]

theorem lookup_mapSet_cases (l : List (String × EnemyData)) (id id' : String)
    (e e' : EnemyData) (h : lookupEnemy (mapSet l id e) id' = some e') :
    e' = e ∨ lookupEnemy l id' = some e' := by
  by_cases hid : id' = id
  · subst hid
    rw [lookup_mapSet_self] at h
    exact Or.inl (Option.some.inj h).symm
  · rw [lookup_mapSet_ne l id id' e hid] at h
    exact Or.inr h

theorem updateTimers_attackCooldown (delta : ℚ) (e : EnemyData) :
    (EnemyAI.updateTimers delta e).attackCooldown =
      if 0 < e.attackCooldown then e.attackCooldown - delta
      else e.attackCooldown := by
  simp only [EnemyAI.updateTimers]
  split <;> split <;> simp_all

theorem updateTimers_alertTime (delta : ℚ) (e : EnemyData) :
    (EnemyAI.updateTimers delta e).alertTime =
      if 0 < e.alertTime then e.alertTime - delta else e.alertTime := by
  simp only [EnemyAI.updateTimers]
  split <;> split <;> simp_all

theorem updateTimers_state (delta : ℚ) (e : EnemyData) :
    (EnemyAI.updateTimers delta e).state = e.state := by
  simp only [EnemyAI.updateTimers]
  split <;> split <;> rfl

theorem updateTimers_stats (delta : ℚ) (e : EnemyData) :
    (EnemyAI.updateTimers delta e).stats = e.stats := by
  simp only [EnemyAI.updateTimers]
  split <;> split <;> rfl

theorem updateTimers_position (delta : ℚ) (e : EnemyData) :
    (EnemyAI.updateTimers delta e).position = e.position := by
  simp only [EnemyAI.updateTimers]
  split <;> split <;> rfl

/-- C1: damageEnemy on a stored, living enemy sets its health to the old
health minus max(1, floor(raw × (1 − defense/(defense+100)))), floored at 0;
with defense 5 and raw damage 25 the mitigated damage is 23; and for every
defense and positive raw damage the mitigated damage is at least 1. -/
theorem c1_damage_mitigation :
    (∀ (s : EnemyStore) (id : String) (e : EnemyData) (raw : ℚ) (crit : Bool)
        (now : ℚ), lookupEnemy s.enemies id = some e → e.state ≠ .dead →
      getHealth (damageEnemy s id raw crit now).1 id =
        some (max 0 (e.stats.health - (mitigatedDamage e.stats.defense raw : ℚ)))) ∧
    mitigatedDamage 5 25 = 23 ∧
    (∀ defense raw : ℚ, 0 < raw → 1 ≤ mitigatedDamage defense raw) := by
  refine ⟨?_, ?_, ?_⟩
  · intro s id e raw crit now hl hs
    simp only [damageEnemy, hl]
    rw [if_neg hs]
    simp [getHealth, lookup_mapSet_self]
  · norm_num [mitigatedDamage]
  · intro defense raw _
    exact le_max_left 1 _

/-- Witness for C1 on the concrete one-zombie store. -/
theorem c1_witness :
    getHealth (damageEnemy storeFix (spawnId 0 .zombie) 25 false 0).1
        (spawnId 0 .zombie) = some 77 := by
  have hl : lookupEnemy storeFix.enemies (spawnId 0 .zombie) =
      some (spawnRecord 0 .zombie ⟨10, 1, 0⟩) := by
    simpa [storeFix, spawnEnemy, emptyStore] using
      lookup_mapSet_self [] (spawnId 0 .zombie) (spawnRecord 0 .zombie ⟨10, 1, 0⟩)
  have h := c1_damage_mitigation.1 storeFix (spawnId 0 .zombie)
    (spawnRecord 0 .zombie ⟨10, 1, 0⟩) 25 false 0 hl
    (by simp [spawnRecord])
  rw [h]
  norm_num [spawnRecord, ENEMY_CONFIGS, mitigatedDamage]

theorem transitionToState_state (e : EnemyData) (ns : AIState) :
    (EnemyAI.transitionToState e ns).state = ns := by
  cases ns <;>
    (unfold EnemyAI.transitionToState; split <;> simp_all)

theorem transitionToState_attackCooldown (e : EnemyData) (ns : AIState) :
    (EnemyAI.transitionToState e ns).attackCooldown = e.attackCooldown := by
  cases ns <;>
    (unfold EnemyAI.transitionToState; split <;> rfl)

theorem transitionToState_stats (e : EnemyData) (ns : AIState) :
    (EnemyAI.transitionToState e ns).stats = e.stats := by
  cases ns <;>
    (unfold EnemyAI.transitionToState; split <;> rfl)

theorem transitionToState_chase_alertTime (e : EnemyData) :
    (EnemyAI.transitionToState e .chase).alertTime = e.alertTime := by
  unfold EnemyAI.transitionToState
  split <;> rfl

/-- The alert handler either keeps the state (re-arming alertTime to 1) or
escalates to CHASE (also with alertTime 1): the expiry check at the bottom of
the handler always sees the value 1 written at the top. -/
theorem alertStep_spec (pp : Option Vec3) (e : EnemyData) :
    ((EnemyAI.alertStep pp e).state = e.state ∧
      (EnemyAI.alertStep pp e).alertTime = 1) ∨
    ((EnemyAI.alertStep pp e).state = .chase ∧
      (EnemyAI.alertStep pp e).alertTime = 1) := by
  cases pp with
  | none =>
    left
    constructor <;> (simp only [EnemyAI.alertStep]; norm_num)
  | some p =>
    by_cases hdet : distLT
        (Vec3.distSq ({ e with alertTime := 1 } : EnemyData).position p)
        ({ e with alertTime := 1 } : EnemyData).stats.detectionRange
    · right
      simp only [EnemyAI.alertStep, if_pos hdet, transitionToState_chase_alertTime]
      norm_num [transitionToState_state, transitionToState_chase_alertTime]
    · left
      simp only [EnemyAI.alertStep, if_neg hdet]
      norm_num

theorem alertStep_attackCooldown (pp : Option Vec3) (e : EnemyData) :
    (EnemyAI.alertStep pp e).attackCooldown = e.attackCooldown := by
  cases pp with
  | none =>
    simp only [EnemyAI.alertStep]
    norm_num
  | some p =>
    simp only [EnemyAI.alertStep]
    split
    · split <;> simp [transitionToState_attackCooldown]
    · norm_num

/-- Reduction of the full AI step on an alerted enemy to the alert handler. -/
theorem update_alert_eq (geo : Geo) (pp : Option Vec3) (delta : ℚ)
    (e : EnemyData) (hs : e.state = .alert) :
    EnemyAI.update geo pp delta e =
      (EnemyAI.alertStep pp (EnemyAI.updateTimers delta e), none) := by
  have hd : ¬ e.state = .dead := by rw [hs]; simp
  have h1 : (EnemyAI.updateTimers delta e).state = .alert := by
    rw [updateTimers_state, hs]
  simp only [EnemyAI.update, if_neg hd, h1]

/-- Reduction of the full AI step on a chasing enemy to the chase handler. -/
theorem update_chase_eq (geo : Geo) (pp : Option Vec3) (delta : ℚ)
    (e : EnemyData) (hs : e.state = .chase) :
    EnemyAI.update geo pp delta e =
      (EnemyAI.chaseStep geo pp delta (EnemyAI.updateTimers delta e), none) := by
  have hd : ¬ e.state = .dead := by rw [hs]; simp
  have h1 : (EnemyAI.updateTimers delta e).state = .chase := by
    rw [updateTimers_state, hs]
  simp only [EnemyAI.update, if_neg hd, h1]

/-- C5 corrected: the timer decrement at the top of EnemyAI.update subtracts
delta from a timer only when that timer is currently positive, and the
subtraction is not clamped at 0, so a timer whose remaining value is smaller
than delta becomes negative. -/
theorem c5_timer_decrement :
    (∀ (delta : ℚ) (e : EnemyData),
      (EnemyAI.updateTimers delta e).attackCooldown =
        (if 0 < e.attackCooldown then e.attackCooldown - delta
         else e.attackCooldown) ∧
      (EnemyAI.updateTimers delta e).alertTime =
        (if 0 < e.alertTime then e.alertTime - delta else e.alertTime)) ∧
    (∀ (geo : Geo) (pp : Option Vec3) (delta : ℚ) (e : EnemyData),
      e.state = .alert →
      (EnemyAI.update geo pp delta e).1.attackCooldown =
        (if 0 < e.attackCooldown then e.attackCooldown - delta
         else e.attackCooldown)) := by
  constructor
  · intro delta e
    exact ⟨updateTimers_attackCooldown delta e, updateTimers_alertTime delta e⟩
  · intro geo pp delta e hs
    rw [update_alert_eq geo pp delta e hs]
    simp only [alertStep_attackCooldown]
    exact updateTimers_attackCooldown delta e

/-- Witness for C5's corrected statement, on an alerted enemy whose cooldown
0.1 is smaller than the tick delta 1. -/
theorem c5_witness :
    (EnemyAI.update sampleGeo none 1 eAlertLowCooldown).1.attackCooldown =
      1 / 10 - 1 := by
  rw [c5_timer_decrement.2 sampleGeo none 1 eAlertLowCooldown
    (by simp [eAlertLowCooldown, mkEnemy])]
  norm_num [eAlertLowCooldown, mkEnemy]

/-- Counterexample to C5 as stated: after the decrement phase of a step with
delta 1, the attack cooldown of a living enemy that had 0.1 seconds remaining
is negative, not clamped at 0. -/
theorem c5_counterexample :
    eAlertLowCooldown.state ≠ .dead ∧ (0 : ℚ) ≤ 1 ∧
      (EnemyAI.update sampleGeo none 1 eAlertLowCooldown).1.attackCooldown
        < 0 := by
  refine ⟨by simp [eAlertLowCooldown, mkEnemy], by norm_num, ?_⟩
  rw [update_alert_eq sampleGeo none 1 eAlertLowCooldown
    (by simp [eAlertLowCooldown, mkEnemy])]
  simp only [alertStep_attackCooldown, updateTimers_attackCooldown]
  norm_num [eAlertLowCooldown, mkEnemy]

/-- C6: a DEAD enemy is inert: the AI step returns it unchanged with no attack
event; damageEnemy on it returns the store unchanged (no damage event) and
schedules no respawn; and respawnEnemy puts it back into PATROL. -/
theorem c6_dead_inert :
    (∀ (geo : Geo) (pp : Option Vec3) (delta : ℚ) (e : EnemyData),
      e.state = .dead → EnemyAI.update geo pp delta e = (e, none)) ∧
    (∀ (s : EnemyStore) (id : String) (e : EnemyData) (raw : ℚ) (crit : Bool)
        (now : ℚ), lookupEnemy s.enemies id = some e → e.state = .dead →
      damageEnemy s id raw crit now = (s, none)) ∧
    (∀ (s : EnemyStore) (id : String) (e : EnemyData),
      lookupEnemy s.enemies id = some e →
      (lookupEnemy (respawnEnemy s id).enemies id).map (fun x => x.state) =
        some .patrol) := by
  refine ⟨?_, ?_, ?_⟩
  · intro geo pp delta e hs
    simp [EnemyAI.update, hs]
  · intro s id e raw crit now hl hs
    simp only [damageEnemy, hl]
    rw [if_pos hs]
  · intro s id e hl
    simp only [respawnEnemy, hl, lookup_mapSet_self]
    rfl

/-- Witness for C6 on the concrete dead-zombie store. -/
theorem c6_witness :
    EnemyAI.update sampleGeo none 1 eDeadFix = (eDeadFix, none) ∧
    damageEnemy deadStoreFix "z" 25 false 0 = (deadStoreFix, none) ∧
    (lookupEnemy (respawnEnemy deadStoreFix "z").enemies "z").map
        (fun x => x.state) = some .patrol := by
  refine ⟨?_, ?_, ?_⟩
  · exact c6_dead_inert.1 sampleGeo none 1 eDeadFix (by simp [eDeadFix])
  · exact c6_dead_inert.2.1 deadStoreFix "z" eDeadFix 25 false 0
      (by simp [deadStoreFix, lookupEnemy]) (by simp [eDeadFix])
  · exact c6_dead_inert.2.2 deadStoreFix "z" eDeadFix
      (by simp [deadStoreFix, lookupEnemy])

/-- C7: respawnEnemy on a stored enemy resets position to the first patrol
point, health to maxHealth, state to PATROL, clears the target, and zeroes the
patrol index and both timers, leaving every other field (and every other
enemy, and the damage-event buffer) unchanged; a missing id is a no-op. -/
theorem c7_respawn_resets :
    (∀ (s : EnemyStore) (id : String) (e : EnemyData),
      lookupEnemy s.enemies id = some e →
      lookupEnemy (respawnEnemy s id).enemies id = some
        { e with
          position := e.patrolPoints.headD e.position
          stats := { e.stats with health := e.stats.maxHealth }
          state := .patrol
          target := none
          currentPatrolIndex := 0
          attackCooldown := 0
          alertTime := 0 } ∧
      (∀ id', id' ≠ id →
        lookupEnemy (respawnEnemy s id).enemies id' =
          lookupEnemy s.enemies id') ∧
      (respawnEnemy s id).damageEvents = s.damageEvents) ∧
    (∀ (s : EnemyStore) (id : String),
      lookupEnemy s.enemies id = none → respawnEnemy s id = s) := by
  constructor
  · intro s id e hl
    refine ⟨?_, ?_, ?_⟩
    · simp only [respawnEnemy, hl, lookup_mapSet_self]
    · intro id' hne
      simp only [respawnEnemy, hl]
      exact lookup_mapSet_ne s.enemies id id' _ hne
    · simp only [respawnEnemy, hl]
  · intro s id h
    simp [respawnEnemy, h]

/-- Witness for C7 on the concrete dead-zombie store. -/
theorem c7_witness :
    lookupEnemy (respawnEnemy deadStoreFix "z").enemies "z" = some
      { eDeadFix with
        position := eDeadFix.patrolPoints.headD eDeadFix.position
        stats := { eDeadFix.stats with health := eDeadFix.stats.maxHealth }
        state := .patrol
        target := none
        currentPatrolIndex := 0
        attackCooldown := 0
        alertTime := 0 } :=
  (c7_respawn_resets.1 deadStoreFix "z" eDeadFix
    (by simp [deadStoreFix, lookupEnemy])).1

/-- C9: a chasing enemy below 20 percent health transitions to FLEE before the
attack-range check, for every player position. -/
theorem c9_chase_flee_priority :
    ∀ (geo : Geo) (p : Vec3) (delta : ℚ) (e : EnemyData),
      e.state = .chase → e.stats.health < e.stats.maxHealth * (1 / 5) →
      (EnemyAI.update geo (some p) delta e).1.state = .flee := by
  intro geo p delta e hs hh
  rw [update_chase_eq geo (some p) delta e hs]
  simp only [EnemyAI.chaseStep, updateTimers_stats]
  rw [if_pos hh]
  exact transitionToState_state _ _

/-- Witness for C9: a zombie in CHASE at 15 percent health flees even though
the player stands at its own position (well within attack range). -/
theorem c9_witness :
    (EnemyAI.update sampleGeo (some ⟨0, 0, 0⟩) (1 / 60)
        eChaseLowHealth).1.state = .flee := by
  refine c9_chase_flee_priority sampleGeo ⟨0, 0, 0⟩ (1 / 60) eChaseLowHealth
    (by simp [eChaseLowHealth, mkEnemy]) ?_
  norm_num [eChaseLowHealth, mkEnemy]

/-- C4: an alerted enemy never falls back to PATROL by timer expiry: every AI
step from ALERT either stays in ALERT or escalates to CHASE, with alertTime
equal to 1 afterwards in both cases, because the handler re-arms the timer
before checking it. -/
theorem c4_alert_never_times_out :
    ∀ (geo : Geo) (pp : Option Vec3) (delta : ℚ) (e : EnemyData),
      0 ≤ delta → e.state = .alert →
      (((EnemyAI.update geo pp delta e).1.state = .alert ∧
        (EnemyAI.update geo pp delta e).1.alertTime = 1) ∨
       ((EnemyAI.update geo pp delta e).1.state = .chase ∧
        (EnemyAI.update geo pp delta e).1.alertTime = 1)) := by
  intro geo pp delta e _ hs
  rw [update_alert_eq geo pp delta e hs]
  have h1 : (EnemyAI.updateTimers delta e).state = .alert := by
    rw [updateTimers_state, hs]
  rcases alertStep_spec pp (EnemyAI.updateTimers delta e) with ⟨h2, h3⟩ | ⟨h2, h3⟩
  · left
    exact ⟨by rw [h2, h1], h3⟩
  · right
    exact ⟨h2, h3⟩

/-- Witness for C4: a concrete alerted zombie stepped with delta 1 and no
player position stays in ALERT with alertTime 1. -/
theorem c4_witness :
    ((EnemyAI.update sampleGeo none 1 eAlertLowCooldown).1.state = .alert ∧
      (EnemyAI.update sampleGeo none 1 eAlertLowCooldown).1.alertTime = 1) ∨
    ((EnemyAI.update sampleGeo none 1 eAlertLowCooldown).1.state = .chase ∧
      (EnemyAI.update sampleGeo none 1 eAlertLowCooldown).1.alertTime = 1) :=
  c4_alert_never_times_out sampleGeo none 1 eAlertLowCooldown (by norm_num)
    (by simp [eAlertLowCooldown, mkEnemy])

/-- C2: the health invariant 0 ≤ health ≤ maxHealth holds for every enemy of
the store: it is established by spawnEnemy and preserved by damageEnemy
(health floored at 0) and by respawnEnemy (health reset to maxHealth). -/
theorem c2_health_invariant :
    (∀ (s : EnemyStore) (counter : ℕ) (type : EnemyType) (pos : Vec3),
      StoreInv s → StoreInv (spawnEnemy s counter type pos).1) ∧
    (∀ (s : EnemyStore) (id : String) (raw : ℚ) (crit : Bool) (now : ℚ),
      StoreInv s → StoreInv (damageEnemy s id raw crit now).1) ∧
    (∀ (s : EnemyStore) (id : String),
      StoreInv s → StoreInv (respawnEnemy s id)) := by
  refine ⟨?_, ?_, ?_⟩
  · intro s counter type pos hinv id' e' hl'
    simp only [spawnEnemy] at hl'
    rcases lookup_mapSet_cases _ _ _ _ _ hl' with he | hold
    · subst he
      cases type <;> norm_num [spawnRecord, ENEMY_CONFIGS, healthInv]
    · exact hinv id' e' hold
  · intro s id raw crit now hinv
    cases hL : lookupEnemy s.enemies id with
    | none =>
      have hu : damageEnemy s id raw crit now = (s, none) := by
        simp [damageEnemy, hL]
      rw [hu]
      exact hinv
    | some enemy =>
      by_cases hdead : enemy.state = .dead
      · have hu : damageEnemy s id raw crit now = (s, none) := by
          simp only [damageEnemy, hL]
          rw [if_pos hdead]
        rw [hu]
        exact hinv
      · intro id' e' hl'
        simp only [damageEnemy, hL, hdead, if_false] at hl'
        rcases lookup_mapSet_cases _ _ _ _ _ hl' with he | hold
        · obtain ⟨h0, h1⟩ := hinv id enemy hL
          subst he
          have hf : (1 : ℚ) ≤ (mitigatedDamage enemy.stats.defense raw : ℚ) := by
            have h2 : (1 : ℤ) ≤ mitigatedDamage enemy.stats.defense raw :=
              le_max_left 1 _
            exact_mod_cast h2
          constructor
          · exact le_max_left 0 _
          · exact max_le (le_trans h0 h1) (by linarith)
        · exact hinv id' e' hold
  · intro s id hinv
    cases hL : lookupEnemy s.enemies id with
    | none =>
      have hu : respawnEnemy s id = s := by simp [respawnEnemy, hL]
      rw [hu]
      exact hinv
    | some enemy =>
      intro id' e' hl'
      simp only [respawnEnemy, hL] at hl'
      rcases lookup_mapSet_cases _ _ _ _ _ hl' with he | hold
      · obtain ⟨h0, h1⟩ := hinv id enemy hL
        subst he
        exact ⟨le_trans h0 h1, le_refl _⟩
      · exact hinv id' e' hold

/-- Witness for C2: the invariant holds for the concrete one-zombie store
obtained by spawning into the empty store. -/
theorem c2_witness : StoreInv storeFix :=
  c2_health_invariant.1 emptyStore 0 .zombie ⟨10, 1, 0⟩
    (by intro id e h; simp [emptyStore, lookupEnemy] at h)

/-- C10: the or-defaulting in performMeleeAttack treats an explicit 0 like an
absent field: critChance 0 is still rolled against 0.1 and critMultiplier 0
still doubles critical damage, and no nonnegative value of either field yields
a zero effective crit chance or a zero effective crit multiplier. -/
theorem c10_crit_defaulting :
    (∀ (w : Weapon) (rand : ℚ), w.critChance = some 0 →
      ((meleeDamageRoll w rand).2 = true ↔ rand < 1 / 10)) ∧
    (∀ (w : Weapon) (rand : ℚ), w.critMultiplier = some 0 →
      (meleeDamageRoll w rand).2 = true →
      (meleeDamageRoll w rand).1 = w.damage * 2) ∧
    (∀ c : ℚ, 0 ≤ c → 0 < jsOrDefault (some c) (1 / 10)) ∧
    (∀ m : ℚ, 0 ≤ m → 0 < jsOrDefault (some m) 2) := by
  refine ⟨?_, ?_, ?_, ?_⟩
  · intro w rand hc
    simp [meleeDamageRoll, hc, jsOrDefault]
  · intro w rand hm hcrit
    simp only [meleeDamageRoll, hm] at hcrit ⊢
    rw [if_pos hcrit]
    simp [jsOrDefault]
  · intro c hc
    rcases eq_or_lt_of_le hc with h | h
    · simp only [jsOrDefault, ← h, if_pos rfl]
      norm_num
    · simp [jsOrDefault, ne_of_gt h, h]
  · intro m hm
    rcases eq_or_lt_of_le hm with h | h
    · simp only [jsOrDefault, ← h, if_pos rfl]
      norm_num
    · simp [jsOrDefault, ne_of_gt h, h]

/-- Witness for C10: a weapon configured with critChance 0 and critMultiplier
0 crits on a roll of 0.05 and its crit deals double damage. -/
theorem c10_witness :
    ((meleeDamageRoll ⟨25, 2, 3 / 2, some 0, some 0⟩ (1 / 20)).2 = true ↔
      (1 / 20 : ℚ) < 1 / 10) ∧
    (0 : ℚ) < jsOrDefault (some 0) (1 / 10) ∧
    (0 : ℚ) < jsOrDefault (some 0) 2 :=
  ⟨c10_crit_defaulting.1 ⟨25, 2, 3 / 2, some 0, some 0⟩ (1 / 20) rfl,
   c10_crit_defaulting.2.2.1 0 le_rfl,
   c10_crit_defaulting.2.2.2 0 le_rfl⟩

theorem sweep_expired_mono (pos : Vec3) :
    ∀ (l : List (String × EnemyData)) (st : ProjectileState),
      st.hasExpired = true → (projectileHitSweep st pos l).1.hasExpired = true := by
  intro l
  induction l with
  | nil => intro st h; simpa [projectileHitSweep] using h
  | cons hd tl ih =>
    intro st h
    obtain ⟨id0, e0⟩ := hd
    simp only [projectileHitSweep]
    split
    · exact ih st h
    · split
      · exact ih _ rfl
      · exact ih st h

theorem sweep_expired_of_hits (pos : Vec3) :
    ∀ (l : List (String × EnemyData)) (st : ProjectileState),
      (projectileHitSweep st pos l).2 ≠ [] →
      (projectileHitSweep st pos l).1.hasExpired = true := by
  intro l
  induction l with
  | nil => intro st h; simp [projectileHitSweep] at h
  | cons hd tl ih =>
    intro st h
    obtain ⟨id0, e0⟩ := hd
    simp only [projectileHitSweep] at h ⊢
    by_cases h1 : e0.state = .dead ∨ id0 ∈ st.checkedEnemies
    · rw [if_pos h1] at h ⊢
      exact ih st h
    · rw [if_neg h1] at h ⊢
      by_cases h2 : distLT (Vec3.distSq pos e0.position) (3 / 2)
      · rw [if_pos h2] at h ⊢
        exact sweep_expired_mono pos tl _ rfl
      · rw [if_neg h2] at h ⊢
        exact ih st h

theorem sweep_mem (pos : Vec3) :
    ∀ (l : List (String × EnemyData)) (st : ProjectileState) (id : String)
      (e : EnemyData),
      (l.map Prod.fst).Nodup → (id, e) ∈ l → e.state ≠ .dead →
      id ∉ st.checkedEnemies → distLT (Vec3.distSq pos e.position) (3 / 2) →
      id ∈ (projectileHitSweep st pos l).2 := by
  intro l
  induction l with
  | nil => intro st id e _ hmem; simp at hmem
  | cons hd tl ih =>
    intro st id e hnd hmem halive hnotin hdist
    obtain ⟨id0, e0⟩ := hd
    have hnd0 : id0 ∉ tl.map Prod.fst :=
      (List.nodup_cons.mp (by simpa using hnd)).1
    have hnd' : (tl.map Prod.fst).Nodup :=
      (List.nodup_cons.mp (by simpa using hnd)).2
    rcases List.mem_cons.mp hmem with heq | htl
    · injection heq with h1 h2
      subst h1
      subst h2
      simp only [projectileHitSweep]
      rw [if_neg (by push_neg; exact ⟨halive, hnotin⟩)]
      rw [if_pos hdist]
      exact List.mem_cons_self _ _
    · have hid : id ∈ tl.map Prod.fst := by
        simpa using List.mem_map_of_mem Prod.fst htl
      have hne : id ≠ id0 := fun hcontra => hnd0 (hcontra ▸ hid)
      simp only [projectileHitSweep]
      by_cases h1 : e0.state = .dead ∨ id0 ∈ st.checkedEnemies
      · rw [if_pos h1]
        exact ih st id e hnd' htl halive hnotin hdist
      · rw [if_neg h1]
        by_cases h2 : distLT (Vec3.distSq pos e0.position) (3 / 2)
        · rw [if_pos h2]
          have hnotin1 : id ∉ id0 :: st.checkedEnemies := by
            simp only [List.mem_cons]
            push_neg
            exact ⟨hne, hnotin⟩
          exact List.mem_cons_of_mem _
            (ih _ id e hnd' htl halive hnotin1 hdist)
        · rw [if_neg h2]
          exact ih st id e hnd' htl halive hnotin hdist

theorem sweep_fresh (pos : Vec3) :
    ∀ (l : List (String × EnemyData)) (st : ProjectileState) (id : String),
      id ∈ (projectileHitSweep st pos l).2 → id ∉ st.checkedEnemies := by
  intro l
  induction l with
  | nil => intro st id h; simp [projectileHitSweep] at h
  | cons hd tl ih =>
    intro st id h
    obtain ⟨id0, e0⟩ := hd
    simp only [projectileHitSweep] at h
    split at h
    · exact ih st id h
    · rename_i hguard
      split at h
      · rcases List.mem_cons.mp h with heq | htl
        · subst heq
          push_neg at hguard
          exact hguard.2
        · have := ih _ id htl
          simp only [List.mem_cons] at this
          push_neg at this
          exact this.2
      · exact ih st id h

theorem sweep_nodup (pos : Vec3) :
    ∀ (l : List (String × EnemyData)) (st : ProjectileState),
      ((projectileHitSweep st pos l).2).Nodup := by
  intro l
  induction l with
  | nil => intro st; simp [projectileHitSweep]
  | cons hd tl ih =>
    intro st
    obtain ⟨id0, e0⟩ := hd
    simp only [projectileHitSweep]
    split
    · exact ih st
    · split
      · refine List.nodup_cons.mpr ⟨?_, ih _⟩
        intro hmem
        have := sweep_fresh pos tl _ id0 hmem
        simp at this
      · exact ih st

/-- Reduction of a projectile tick on a live projectile to its hit sweep. -/
theorem projectileTick_not_expired (st : ProjectileState) (delta : ℚ)
    (pos : Vec3) (enemies : List (String × EnemyData))
    (h : st.hasExpired = false) :
    projectileTick st delta pos enemies =
      projectileHitSweep
        { st with lifetime := max 0 (st.lifetime - delta),
                  hasExpired := decide (max 0 (st.lifetime - delta) ≤ 0) }
        pos enemies := by
  simp only [projectileTick, h, Bool.false_eq_true, if_false]

/-- C8 amended: in any tick of a not-yet-expired projectile, every living
enemy outside the hit-set within 1.5 units is damaged and the projectile
expires; an expired projectile damages nothing; within one tick no enemy in
the prior hit-set is damaged and no enemy is damaged twice — but all
qualifying enemies of that final tick are damaged, so a single projectile can
damage several distinct enemies. -/
theorem c8_projectile_first_hit :
    (∀ (st : ProjectileState) (delta : ℚ) (pos : Vec3)
        (enemies : List (String × EnemyData)) (id : String) (e : EnemyData),
      st.hasExpired = false → (enemies.map Prod.fst).Nodup →
      (id, e) ∈ enemies → e.state ≠ .dead → id ∉ st.checkedEnemies →
      distLT (Vec3.distSq pos e.position) (3 / 2) →
      id ∈ (projectileTick st delta pos enemies).2 ∧
        (projectileTick st delta pos enemies).1.hasExpired = true) ∧
    (∀ (st : ProjectileState) (delta : ℚ) (pos : Vec3)
        (enemies : List (String × EnemyData)), st.hasExpired = true →
      projectileTick st delta pos enemies = (st, [])) ∧
    (∀ (st : ProjectileState) (delta : ℚ) (pos : Vec3)
        (enemies : List (String × EnemyData)) (id : String),
      id ∈ (projectileTick st delta pos enemies).2 →
      id ∉ st.checkedEnemies) ∧
    (∀ (st : ProjectileState) (delta : ℚ) (pos : Vec3)
        (enemies : List (String × EnemyData)),
      ((projectileTick st delta pos enemies).2).Nodup) := by
  refine ⟨?_, ?_, ?_, ?_⟩
  · intro st delta pos enemies id e hrun hnd hmem halive hnotin hdist
    rw [projectileTick_not_expired st delta pos enemies hrun]
    have hm : id ∈ (projectileHitSweep
        { st with lifetime := max 0 (st.lifetime - delta),
                  hasExpired := decide (max 0 (st.lifetime - delta) ≤ 0) }
        pos enemies).2 :=
      sweep_mem pos enemies _ id e hnd hmem halive hnotin hdist
    refine ⟨hm, ?_⟩
    refine sweep_expired_of_hits pos enemies _ fun hnil => ?_
    rw [hnil] at hm
    exact absurd hm (List.not_mem_nil id)
  · intro st delta pos enemies h
    simp [projectileTick, h]
  · intro st delta pos enemies id h
    cases hrun : st.hasExpired with
    | true => simp [projectileTick, hrun] at h
    | false =>
      rw [projectileTick_not_expired st delta pos enemies hrun] at h
      exact sweep_fresh pos enemies
        { st with lifetime := max 0 (st.lifetime - delta),
                  hasExpired := decide (max 0 (st.lifetime - delta) ≤ 0) }
        id h
  · intro st delta pos enemies
    cases hrun : st.hasExpired with
    | true => simp [projectileTick, hrun]
    | false =>
      rw [projectileTick_not_expired st delta pos enemies hrun]
      exact sweep_nodup pos enemies _

/-- Witness for C8's amended statement: a fresh projectile at the position of
a living zombie damages it and expires in that tick. -/
theorem c8_witness :
    "a" ∈ (projectileTick ⟨5, false, []⟩ (1 / 60) ⟨0, 0, 0⟩
        [("a", mkEnemy ⟨0, 0, 0⟩)]).2 ∧
    (projectileTick ⟨5, false, []⟩ (1 / 60) ⟨0, 0, 0⟩
        [("a", mkEnemy ⟨0, 0, 0⟩)]).1.hasExpired = true :=
  c8_projectile_first_hit.1 ⟨5, false, []⟩ (1 / 60) ⟨0, 0, 0⟩
    [("a", mkEnemy ⟨0, 0, 0⟩)] "a" (mkEnemy ⟨0, 0, 0⟩) rfl (by simp)
    (by simp) (by simp [mkEnemy]) (by simp)
    (by norm_num [distLT, Vec3.distSq, mkEnemy])

/-- Counterexample to C8 as stated: one tick of a single projectile whose
position is within 1.5 units of two living enemies damages both of them, so a
projectile can damage more than one enemy over its lifetime. -/
theorem c8_counterexample :
    (projectileTick ⟨5, false, []⟩ (1 / 60) ⟨0, 0, 0⟩
        [("a", mkEnemy ⟨0, 0, 0⟩), ("b", mkEnemy ⟨1, 0, 0⟩)]).2 =
      ["a", "b"] := by
  norm_num [projectileTick, projectileHitSweep, mkEnemy, distLT, Vec3.distSq]
  simp

theorem hitCandidate_spec (ro rd : Vec3) (maxD : ℚ) (e : EnemyData) (t : ℚ)
    (h : hitCandidate ro rd maxD e = some t) :
    hitQualifies ro rd maxD e ∧ t = rayT ro rd e := by
  simp only [hitCandidate] at h
  by_cases h1 : e.state = .dead
  · rw [if_pos h1] at h
    exact absurd h (by simp)
  · rw [if_neg h1] at h
    by_cases h2 : rayT ro rd e < 0
    · rw [if_pos h2] at h
      exact absurd h (by simp)
    · rw [if_neg h2] at h
      by_cases h3 : rayT ro rd e > maxD
      · rw [if_pos h3] at h
        exact absurd h (by simp)
      · rw [if_neg h3] at h
        by_cases h4 : rayPerpSq ro rd e ≤ 1
        · rw [if_pos h4] at h
          exact ⟨⟨h1, not_lt.mp h2, not_lt.mp h3, h4⟩,
            (Option.some.inj h).symm⟩
        · rw [if_neg h4] at h
          exact absurd h (by simp)

theorem hitCandidate_some (ro rd : Vec3) (maxD : ℚ) (e : EnemyData)
    (hq : hitQualifies ro rd maxD e) :
    hitCandidate ro rd maxD e = some (rayT ro rd e) := by
  obtain ⟨h1, h2, h3, h4⟩ := hq
  simp only [hitCandidate]
  rw [if_neg h1, if_neg (not_lt.mpr h2), if_neg (not_lt.mpr h3), if_pos h4]

theorem hitCandidate_ne_none (ro rd : Vec3) (maxD : ℚ) (e : EnemyData) :
    hitCandidate ro rd maxD e ≠ none ↔ hitQualifies ro rd maxD e := by
  constructor
  · intro h
    cases hc : hitCandidate ro rd maxD e with
    | none => exact absurd hc h
    | some t => exact (hitCandidate_spec ro rd maxD e t hc).1
  · intro hq
    rw [hitCandidate_some ro rd maxD e hq]
    simp

theorem considerHit_none_iff (ro rd : Vec3) (maxD : ℚ)
    (best : Option (String × ℚ)) (id : String) (e : EnemyData) :
    considerHit ro rd maxD best id e = none ↔
      best = none ∧ hitCandidate ro rd maxD e = none := by
  cases hc : hitCandidate ro rd maxD e with
  | none => simp [considerHit, hc]
  | some t =>
    cases best with
    | none => simp [considerHit, hc]
    | some b =>
      obtain ⟨bid, bt⟩ := b
      by_cases hlt : t < bt
      · simp [considerHit, hc, hlt]
      · simp [considerHit, hc, hlt]

theorem considerHit_spec (ro rd : Vec3) (maxD : ℚ)
    (best : Option (String × ℚ)) (id : String) (e : EnemyData)
    (r : String × ℚ) (h : considerHit ro rd maxD best id e = some r) :
    (best = some r ∨ (r.1 = id ∧ hitCandidate ro rd maxD e = some r.2)) ∧
      (∀ t, hitCandidate ro rd maxD e = some t → r.2 ≤ t) ∧
      (∀ b : String × ℚ, best = some b → r.2 ≤ b.2) := by
  cases hc : hitCandidate ro rd maxD e with
  | none =>
    simp only [considerHit, hc] at h
    refine ⟨Or.inl h, ?_, ?_⟩
    · intro t ht
      exact absurd ht (by simp)
    · intro b hb
      rw [h] at hb
      rw [Option.some.inj hb]
  | some t =>
    cases best with
    | none =>
      simp only [considerHit, hc] at h
      have hr : r = (id, t) := (Option.some.inj h).symm
      subst hr
      refine ⟨Or.inr ⟨rfl, rfl⟩, ?_, ?_⟩
      · intro t' ht'
        exact le_of_eq (Option.some.inj ht')
      · intro b hb
        exact absurd hb (by simp)
    | some b0 =>
      obtain ⟨bid, bt⟩ := b0
      simp only [considerHit, hc] at h
      by_cases hlt : t < bt
      · rw [if_pos hlt] at h
        have hr : r = (id, t) := (Option.some.inj h).symm
        subst hr
        refine ⟨Or.inr ⟨rfl, rfl⟩, ?_, ?_⟩
        · intro t' ht'
          exact le_of_eq (Option.some.inj ht')
        · intro b hb
          have hbb : (bid, bt) = b := Option.some.inj hb
          rw [← hbb]
          exact le_of_lt hlt
      · rw [if_neg hlt] at h
        have hr : r = (bid, bt) := (Option.some.inj h).symm
        refine ⟨Or.inl (by rw [hr]), ?_, ?_⟩
        · intro t' ht'
          rw [hr, ← Option.some.inj ht']
          exact not_lt.mp hlt
        · intro b hb
          have hbb : (bid, bt) = b := Option.some.inj hb
          rw [hr, ← hbb]

theorem considerHit_bound (ro rd : Vec3) (maxD : ℚ)
    (best : Option (String × ℚ)) (id : String) (e : EnemyData) (t : ℚ)
    (hct : hitCandidate ro rd maxD e = some t) :
    ∃ b : String × ℚ, considerHit ro rd maxD best id e = some b ∧ b.2 ≤ t := by
  cases best with
  | none =>
    simp only [considerHit, hct]
    exact ⟨(id, t), rfl, le_refl t⟩
  | some b0 =>
    obtain ⟨bid, bt⟩ := b0
    simp only [considerHit, hct]
    by_cases hlt : t < bt
    · rw [if_pos hlt]
      exact ⟨(id, t), rfl, le_refl t⟩
    · rw [if_neg hlt]
      exact ⟨(bid, bt), rfl, not_lt.mp hlt⟩

theorem considerHit_le_best (ro rd : Vec3) (maxD : ℚ)
    (best : Option (String × ℚ)) (id : String) (e : EnemyData)
    (b : String × ℚ) (hb : best = some b) :
    ∃ b' : String × ℚ,
      considerHit ro rd maxD best id e = some b' ∧ b'.2 ≤ b.2 := by
  subst hb
  obtain ⟨bid, bt⟩ := b
  cases hc : hitCandidate ro rd maxD e with
  | none =>
    simp only [considerHit, hc]
    exact ⟨(bid, bt), rfl, le_refl bt⟩
  | some t =>
    simp only [considerHit, hc]
    by_cases hlt : t < bt
    · rw [if_pos hlt]
      exact ⟨(id, t), rfl, le_of_lt hlt⟩
    · rw [if_neg hlt]
      exact ⟨(bid, bt), rfl, le_refl bt⟩

theorem checkEnemyHitAux_none_iff (ro rd : Vec3) (maxD : ℚ) :
    ∀ (l : List (String × EnemyData)) (best : Option (String × ℚ)),
      checkEnemyHitAux ro rd maxD l best = none ↔
        best = none ∧ ∀ p ∈ l, hitCandidate ro rd maxD p.2 = none := by
  intro l
  induction l with
  | nil => intro best; simp [checkEnemyHitAux]
  | cons hd tl ih =>
    intro best
    obtain ⟨id, e⟩ := hd
    simp only [checkEnemyHitAux]
    rw [ih]
    rw [considerHit_none_iff]
    constructor
    · rintro ⟨⟨hb, hc⟩, hall⟩
      refine ⟨hb, ?_⟩
      intro p hp
      rcases List.mem_cons.mp hp with heq | hp'
      · rw [heq]
        exact hc
      · exact hall p hp'
    · rintro ⟨hb, hall⟩
      exact ⟨⟨hb, hall (id, e) (List.mem_cons_self _ _)⟩,
        fun p hp => hall p (List.mem_cons_of_mem _ hp)⟩

theorem checkEnemyHitAux_min (ro rd : Vec3) (maxD : ℚ) :
    ∀ (l : List (String × EnemyData)) (best : Option (String × ℚ))
      (r : String × ℚ), checkEnemyHitAux ro rd maxD l best = some r →
      (best = some r ∨
        ∃ e, (r.1, e) ∈ l ∧ hitCandidate ro rd maxD e = some r.2) ∧
      (∀ p ∈ l, ∀ t, hitCandidate ro rd maxD p.2 = some t → r.2 ≤ t) ∧
      (∀ b : String × ℚ, best = some b → r.2 ≤ b.2) := by
  intro l
  induction l with
  | nil =>
    intro best r h
    simp only [checkEnemyHitAux] at h
    refine ⟨Or.inl h, by simp, ?_⟩
    intro b hb
    rw [h] at hb
    rw [Option.some.inj hb]
  | cons hd tl ih =>
    intro best r h
    obtain ⟨id, e⟩ := hd
    simp only [checkEnemyHitAux] at h
    obtain ⟨hA, hB, hC⟩ := ih (considerHit ro rd maxD best id e) r h
    refine ⟨?_, ?_, ?_⟩
    · rcases hA with hstep | ⟨e', hmem', hc'⟩
      · rcases (considerHit_spec ro rd maxD best id e r hstep).1 with
          hb | ⟨hid, hc⟩
        · exact Or.inl hb
        · refine Or.inr ⟨e, ?_, hc⟩
          rw [hid]
          exact List.mem_cons_self _ _
      · exact Or.inr ⟨e', List.mem_cons_of_mem _ hmem', hc'⟩
    · intro p hp t hct
      rcases List.mem_cons.mp hp with heq | hp'
      · rw [heq] at hct
        obtain ⟨b, hb, hbt⟩ := considerHit_bound ro rd maxD best id e t hct
        exact le_trans (hC b hb) hbt
      · exact hB p hp' t hct
    · intro b hb
      obtain ⟨b', hb', hle⟩ := considerHit_le_best ro rd maxD best id e b hb
      exact le_trans (hC b' hb') hle

/-- C3: checkEnemyHit returns a hit exactly when some stored living enemy has
ray projection t in [0, maxDistance] and perpendicular distance to the ray at
most 1; the returned hit is such an enemy together with its projection, which
is minimal among all qualifying enemies; and on the concrete rays of the spec:
a ray from the origin along (0,0,-1) with maxDistance 2 hits an enemy at
(0,0,-1) at distance 1 but misses enemies at (0,0,1) and (0,0,-5). -/
theorem c3_melee_raycast :
    (∀ (enemies : List (String × EnemyData)) (ro rd : Vec3) (maxD : ℚ),
      ((checkEnemyHit enemies ro rd maxD).isSome = true ↔
        ∃ p ∈ enemies, hitQualifies ro rd maxD p.2) ∧
      (∀ (id : String) (t : ℚ),
        checkEnemyHit enemies ro rd maxD = some (id, t) →
        (∃ e, (id, e) ∈ enemies ∧ hitQualifies ro rd maxD e ∧
          t = rayT ro rd e) ∧
        (∀ p ∈ enemies, hitQualifies ro rd maxD p.2 →
          t ≤ rayT ro rd p.2))) ∧
    checkEnemyHit [("a", mkEnemy ⟨0, 0, -1⟩)] ⟨0, 0, 0⟩ ⟨0, 0, -1⟩ 2 =
      some ("a", 1) ∧
    checkEnemyHit [("b", mkEnemy ⟨0, 0, 1⟩)] ⟨0, 0, 0⟩ ⟨0, 0, -1⟩ 2 = none ∧
    checkEnemyHit [("c", mkEnemy ⟨0, 0, -5⟩)] ⟨0, 0, 0⟩ ⟨0, 0, -1⟩ 2 =
      none := by
  refine ⟨?_, ?_, ?_, ?_⟩
  · intro enemies ro rd maxD
    constructor
    · rw [Option.isSome_iff_ne_none]
      unfold checkEnemyHit
      rw [Ne, checkEnemyHitAux_none_iff]
      constructor
      · intro h
        push_neg at h
        obtain ⟨p, hp, hne⟩ := h (by rfl)
        exact ⟨p, hp, (hitCandidate_ne_none ro rd maxD p.2).mp hne⟩
      · rintro ⟨p, hp, hq⟩ ⟨_, hall⟩
        have := hall p hp
        rw [hitCandidate_some ro rd maxD p.2 hq] at this
        exact absurd this (by simp)
    · intro id t h
      obtain ⟨hA, hB, _⟩ :=
        checkEnemyHitAux_min ro rd maxD enemies none (id, t) h
      constructor
      · rcases hA with hbad | ⟨e, hmem, hc⟩
        · exact absurd hbad (by simp)
        · obtain ⟨hq, ht⟩ := hitCandidate_spec ro rd maxD e t hc
          exact ⟨e, hmem, hq, ht⟩
      · intro p hp hq
        exact hB p hp (rayT ro rd p.2)
          (hitCandidate_some ro rd maxD p.2 hq)
  · norm_num [checkEnemyHit, checkEnemyHitAux, considerHit, hitCandidate,
      rayT, rayPerpSq, Vec3.distSq, Vec3.sub, Vec3.dot, Vec3.add, Vec3.smul,
      mkEnemy]
    simp
  · norm_num [checkEnemyHit, checkEnemyHitAux, considerHit, hitCandidate,
      rayT, rayPerpSq, Vec3.distSq, Vec3.sub, Vec3.dot, Vec3.add, Vec3.smul,
      mkEnemy]
  · norm_num [checkEnemyHit, checkEnemyHitAux, considerHit, hitCandidate,
      rayT, rayPerpSq, Vec3.distSq, Vec3.sub, Vec3.dot, Vec3.add, Vec3.smul,
      mkEnemy]

/-- Witness for C3: the enemy one unit in front of the origin qualifies, and
its projection 1 is (trivially) minimal. -/
theorem c3_witness :
    hitQualifies ⟨0, 0, 0⟩ ⟨0, 0, -1⟩ 2 (mkEnemy ⟨0, 0, -1⟩) ∧
      (1 : ℚ) ≤ rayT ⟨0, 0, 0⟩ ⟨0, 0, -1⟩ (mkEnemy ⟨0, 0, -1⟩) := by
  have h := (c3_melee_raycast.1 [("a", mkEnemy ⟨0, 0, -1⟩)]
    ⟨0, 0, 0⟩ ⟨0, 0, -1⟩ 2).2 "a" 1 c3_melee_raycast.2.1
  obtain ⟨⟨e, hmem, hq, _⟩, hmin⟩ := h
  have he : e = mkEnemy ⟨0, 0, -1⟩ := by
    simp only [List.mem_singleton] at hmem
    exact (Prod.mk.inj hmem).2
  refine ⟨he ▸ hq, ?_⟩
  exact hmin ("a", mkEnemy ⟨0, 0, -1⟩) (List.mem_singleton.mpr rfl)
    (he ▸ hq)

end VoxelWarfare
